import Mathlib

/-!
Shallow embedding of `main.py`, a script that drives a remote agent service:
configuration loading from environment variables, an agent get-or-create
procedure, a run-polling loop with automatic MCP tool-call approval, and a
catch-all error handler.  Remote state is modelled as an input trace of run
states (the successive results of `runs.get`); the script's observable
behaviour is modelled as the list of service calls and prints it emits.
-/

/-! ## Strings: substring containment and lowercasing

Python's `needle in hay` on strings is substring containment, and
`str.lower()` lowercases each character.  Both are modelled on `List Char`.
-/

/-- `hasSub needle hay` is Python's `needle in hay`: some contiguous slice of
`hay` equals `needle`. -/
def hasSub (needle : List Char) : List Char → Bool
  | [] => needle.isEmpty
  | c :: rest => needle.isPrefixOf (c :: rest) || hasSub needle rest

/-- `strContains hay needle` is Python's `needle in hay` on strings. -/
def strContains (hay needle : String) : Bool :=
  hasSub needle.data hay.data

/-- Python's `str.lower()`, modelled characterwise. -/
def strLower (s : String) : String :=
  ⟨s.data.map Char.toLower⟩

/-! ## Configuration (main.py lines 37-40)

`os.environ` is modelled as an association list; `os.environ.get(key, dflt)`
is lookup with a default. -/

/-- A process environment: variable names mapped to values. -/
abbrev Env := List (String × String)

/-- `os.environ.get(key, dflt)`. -/
def envGet (env : Env) (key dflt : String) : String :=
  match env.lookup key with
  | some v => v
  | none => dflt

/-- `PROJECT_ENDPOINT = os.environ.get("PROJECT_ENDPOINT", "")`. -/
def PROJECT_ENDPOINT (env : Env) : String :=
  envGet env "PROJECT_ENDPOINT" ""

/-- `MODEL_DEPLOYMENT_NAME = os.environ.get("MODEL_DEPLOYMENT_NAME", "gpt-4o-mini")`. -/
def MODEL_DEPLOYMENT_NAME (env : Env) : String :=
  envGet env "MODEL_DEPLOYMENT_NAME" "gpt-4o-mini"

/-- `MCP_SERVER_URL = os.environ.get("MCP_SERVER_URL", "https://learn.microsoft.com/api/mcp")`. -/
def MCP_SERVER_URL (env : Env) : String :=
  envGet env "MCP_SERVER_URL" "https://learn.microsoft.com/api/mcp"

/-- `MCP_SERVER_LABEL = os.environ.get("MCP_SERVER_LABEL", "microsoft_learn")`. -/
def MCP_SERVER_LABEL (env : Env) : String :=
  envGet env "MCP_SERVER_LABEL" "microsoft_learn"

/-- `AGENT_NAME = "mcp-docs-assistant"` (main.py line 43). -/
def AGENT_NAME : String := "mcp-docs-assistant"

/-! ## Data model -/

/-- An agent record as created or listed through the service. -/
structure Agent where
  id : String
  name : String
  model : String
  instructions : String
  tools : List String
deriving DecidableEq, Repr

/-- The agent instructions passed to `create_agent` (main.py lines 71-89). -/
def AGENT_INSTRUCTIONS : String :=
  "You are a helpful documentation assistant that specializes in \nMicrosoft Azure and .NET documentation. You have access to the Microsoft Learn \ndocumentation through MCP tools.\n\nAvailable tools:\n- microsoft_docs_search: Search for documentation on any Microsoft topic\n- microsoft_code_sample_search: Find code samples in various programming languages\n- microsoft_docs_fetch: Fetch the complete content of a specific documentation page\n\nIMPORTANT: Always use the MCP tools to search Microsoft Learn documentation before \nanswering questions. Do not rely solely on your training data - use the tools to \nget the latest, accurate information from official Microsoft documentation.\n\nWhen users ask questions about Azure, .NET, or Microsoft products:\n1. Use microsoft_docs_search to find relevant documentation\n2. Use microsoft_code_sample_search to find code examples when appropriate\n3. Provide clear, helpful summaries based on the documentation\n\nAlways cite the source URLs when providing information from documentation."

/-- The MCP tool configuration built in `main` (main.py lines 216-224);
`headers` is the (by default empty) header set forwarded with approvals. -/
structure McpTool where
  server_label : String
  server_url : String
  allowed_tools : List String
  headers : List (String × String)
deriving DecidableEq, Repr

/-- The `McpTool(...)` construction in `main`. -/
def mkMcpTool (env : Env) : McpTool :=
  ⟨MCP_SERVER_LABEL env, MCP_SERVER_URL env,
   ["microsoft_docs_search", "microsoft_code_sample_search", "microsoft_docs_fetch"],
   []⟩

/-- A pending tool call inside a `requires_action` run.  `isMcp` records
whether the SDK object is an instance of `RequiredMcpToolCall` (the
`isinstance` test at main.py line 143). -/
structure RequiredToolCall where
  id : String
  name : String
  isMcp : Bool
deriving DecidableEq, Repr

/-- The `required_action` field of a run: absent, a
`SubmitToolApprovalAction` carrying pending tool calls, or some other action
kind (for which the `isinstance` test at main.py line 133 fails). -/
inductive RequiredAction where
  | noAction
  | submitToolApproval (tool_calls : List RequiredToolCall)
  | otherAction
deriving DecidableEq, Repr

/-- The locally observed state of a run: its `status` string, its
`required_action`, and its `last_error`. -/
structure RunState where
  status : String
  required_action : RequiredAction
  last_error : Option String
deriving DecidableEq, Repr

/-- A `ToolApproval(tool_call_id=..., approve=..., headers=...)` record
(main.py lines 146-150). -/
structure ToolApproval where
  tool_call_id : String
  approve : Bool
  headers : List (String × String)
deriving DecidableEq, Repr

/-! ## Observable events

Each service call or significant print of `run_conversation` is one event;
an execution is the list of events in program order. -/

/-- One observable action of `run_conversation`. -/
inductive Event where
  | createThread
  | createMessage (threadId : String) (role : String) (content : String)
  | setApprovalMode (mode : String)
  | createRun (threadId agentId : String)
  | sleep (seconds : Nat)
  | getRun
  | cancelRun
  | submitApprovals (approvals : List ToolApproval)
  | listRunSteps
  | listMessages
  | printLastError (e : Option String)
deriving DecidableEq, Repr

/-! ## get_or_create_agent (main.py lines 46-93) -/

/-- `get_or_create_agent`: scan the listed agents for the first one named
`AGENT_NAME` and return it; otherwise create a new agent with that name, the
configured model and the MCP tool definitions.  The returned Bool records
whether `create_agent` was called; `newId` is the id the service would assign
to a newly created agent. -/
def get_or_create_agent (agents : List Agent) (modelName : String)
    (mcpToolDefs : List String) (newId : String) : Agent × Bool :=
  match agents.find? (fun a => a.name == AGENT_NAME) with
  | some a => (a, false)
  | none => (⟨newId, AGENT_NAME, modelName, AGENT_INSTRUCTIONS, mcpToolDefs⟩, true)

/-! ## The polling loop of run_conversation (main.py lines 128-160) -/

/-- The statuses that keep the loop running:
`["queued", "in_progress", "requires_action"]` (main.py line 128). -/
def activeStatuses : List String := ["queued", "in_progress", "requires_action"]

/-- The approvals built for one `requires_action` step: one
`ToolApproval(tool_call_id, approve=True, headers)` per pending tool call
that is a `RequiredMcpToolCall` (main.py lines 141-151); other pending tool
calls are skipped. -/
def mkApprovals (headers : List (String × String))
    (tool_calls : List RequiredToolCall) : List ToolApproval :=
  (tool_calls.filter (fun tc => tc.isMcp)).map
    (fun tc => ⟨tc.id, true, headers⟩)

/-- Whether the loop body `break`s (the empty-tool-calls cancel path) or
falls through to the next iteration. -/
inductive LoopControl where
  | stop
  | next
deriving DecidableEq, Repr

/-- The body of one poll iteration, after the re-fetch (main.py lines
132-158): on a `requires_action` status with a `SubmitToolApprovalAction`,
cancel and break if the tool-call list is empty, otherwise build approvals
for the MCP tool calls and submit them when any were built. -/
def loopBody (headers : List (String × String)) (r : RunState) :
    List Event × LoopControl :=
  if r.status = "requires_action" then
    match r.required_action with
    | RequiredAction.submitToolApproval tcs =>
      if tcs.isEmpty then
        ([Event.cancelRun], LoopControl.stop)
      else
        let approvals := mkApprovals headers tcs
        (if approvals.isEmpty then [] else [Event.submitApprovals approvals],
         LoopControl.next)
    | _ => ([], LoopControl.next)
  else ([], LoopControl.next)

/-- The polling loop (main.py lines 128-160) run against a trace: `run` is
the locally held run, `trace` the successive results of `runs.get`.  Returns
the run held at loop exit together with the events emitted, or `none` when
the trace is exhausted while the loop would still be polling (the unbounded
wait). -/
def pollLoop (headers : List (String × String)) :
    RunState → List RunState → Option (RunState × List Event)
  | run, [] =>
    if run.status ∈ activeStatuses then none else some (run, [])
  | run, r :: rest =>
    if run.status ∈ activeStatuses then
      match loopBody headers r with
      | (evs, LoopControl.stop) =>
        some (r, Event.sleep 1 :: Event.getRun :: evs)
      | (evs, LoopControl.next) =>
        match pollLoop headers r rest with
        | none => none
        | some p => some (p.1, Event.sleep 1 :: Event.getRun :: (evs ++ p.2))
    else some (run, [])

/-- The code after the loop (main.py lines 162-194): on `"failed"` print the
run's last error; otherwise list the run steps and list and print the
messages. -/
def postLoop (run : RunState) : List Event :=
  if run.status = "failed" then [Event.printLastError run.last_error]
  else [Event.listRunSteps, Event.listMessages]

/-- `run_conversation` (main.py lines 96-194): create a thread, post the user
message, set approval mode `"never"`, create the run, poll, then report.
Returns the thread id handed back to the caller, the run held at loop exit,
and the full event list; `none` when the polling loop never exits within the
trace. -/
def run_conversation (mcp_tool : McpTool) (threadId agentId userMessage : String)
    (run0 : RunState) (trace : List RunState) :
    Option (String × RunState × List Event) :=
  match pollLoop mcp_tool.headers run0 trace with
  | none => none
  | some p =>
    some (threadId, p.1,
      Event.createThread ::
      Event.createMessage threadId "user" userMessage ::
      Event.setApprovalMode "never" ::
      Event.createRun threadId agentId ::
      (p.2 ++ postLoop p.1))

/-! ## main: endpoint validation (main.py lines 204-235) -/

/-- What `main` does with a given environment: warn and return before
constructing any client, or proceed to build the MCP tool and the project
client for the endpoint. -/
inductive MainOutcome where
  | warned
  | ran (endpoint : String) (tool : McpTool)
deriving DecidableEq, Repr

/-- The endpoint gate of `main` (main.py lines 205-209): if the endpoint is
falsy or does not contain `"services.ai.azure.com"`, print a warning and
return; otherwise construct the MCP tool and the client. -/
def mainCheck (env : Env) : MainOutcome :=
  if PROJECT_ENDPOINT env = ""
      || !(strContains (PROJECT_ENDPOINT env) "services.ai.azure.com") then
    MainOutcome.warned
  else
    MainOutcome.ran (PROJECT_ENDPOINT env) (mkMcpTool env)

/-! ## The catch-all handler (main.py lines 251-259) -/

/-- The hint messages the handler can print. -/
inductive Hint where
  | azureAIUserRole
  | rateLimitWait
deriving DecidableEq, Repr

/-- One step of the catch-all handler's output. -/
inductive HandlerStep where
  | printError (msg : String)
  | printTraceback
  | printHint (h : Hint)
deriving DecidableEq, Repr

/-- The substring-sniffing hint chain (main.py lines 256-259):
`"PermissionDenied" in str(e)` gives the role hint, else
`"rate_limit" in str(e).lower()` gives the rate-limit hint, else nothing. -/
def errorHints (msg : String) : List Hint :=
  if strContains msg "PermissionDenied" then [Hint.azureAIUserRole]
  else if strContains (strLower msg) "rate_limit" then [Hint.rateLimitWait]
  else []

/-- The whole catch-all handler (main.py lines 251-259): print the error,
print a traceback, then print the hints the chain selects. -/
def exceptionHandler (msg : String) : List HandlerStep :=
  HandlerStep.printError msg :: HandlerStep.printTraceback ::
    (errorHints msg).map HandlerStep.printHint

/-! ## Helper predicates used by the theorems -/

/-- Events the polling loop itself can emit. -/
def loopEvent : Event → Bool
  | Event.sleep _ => true
  | Event.getRun => true
  | Event.cancelRun => true
  | Event.submitApprovals _ => true
  | _ => false

/-- The condition under which the loop body breaks: a `requires_action` run
carrying a `SubmitToolApprovalAction` with an empty tool-call list. -/
def emptyApprovalStop (r : RunState) : Bool :=
  r.status == "requires_action" &&
    (match r.required_action with
     | RequiredAction.submitToolApproval tcs => tcs.isEmpty
     | _ => false)

/-- The approval lists submitted in an event list, in order. -/
def submitEvents (evs : List Event) : List (List ToolApproval) :=
  evs.filterMap (fun e =>
    match e with
    | Event.submitApprovals approvals => some approvals
    | _ => none)

/-! ## Helper lemmas -/

/-- `hasSub` decides list-level substring containment. -/
theorem hasSub_iff (needle hay : List Char) :
    hasSub needle hay = true ↔ needle <:+: hay := by
  induction hay with
  | nil => simp [hasSub, List.isEmpty_iff]
  | cons c rest ih =>
    simp [hasSub, List.infix_cons_iff, List.isPrefixOf_iff_prefix, ih]

/-- Every event the loop body emits is a loop event. -/
theorem loopBody_events (headers : List (String × String)) (r : RunState)
    (evs1 : List Event) (ctl : LoopControl)
    (h : loopBody headers r = (evs1, ctl)) : ∀ e ∈ evs1, loopEvent e = true := by
  obtain ⟨st, ra, le⟩ := r
  by_cases hst : st = "requires_action"
  · subst hst
    cases ra with
    | submitToolApproval tcs =>
      by_cases hemp : tcs.isEmpty
      · simp [loopBody, hemp] at h
        obtain ⟨h1, h2⟩ := h
        subst h1
        intro e he
        simp at he
        subst he
        rfl
      · by_cases happ : (mkApprovals headers tcs).isEmpty
        · simp [loopBody, hemp, happ] at h
          obtain ⟨h1, h2⟩ := h
          subst h1
          intro e he
          simp at he
        · simp [loopBody, hemp, happ] at h
          obtain ⟨h1, h2⟩ := h
          subst h1
          intro e he
          simp at he
          subst he
          rfl
    | noAction =>
      simp [loopBody] at h
      obtain ⟨h1, h2⟩ := h
      subst h1
      intro e he
      simp at he
    | otherAction =>
      simp [loopBody] at h
      obtain ⟨h1, h2⟩ := h
      subst h1
      intro e he
      simp at he
  · simp [loopBody, hst] at h
    obtain ⟨h1, h2⟩ := h
    subst h1
    intro e he
    simp at he

/-- If the loop body breaks, the fetched run was `requires_action` with an
empty tool-call list, and the only event is the cancellation. -/
theorem loopBody_stop_inv (headers : List (String × String)) (r : RunState)
    (evs1 : List Event) (h : loopBody headers r = (evs1, LoopControl.stop)) :
    r.status = "requires_action" ∧
    r.required_action = RequiredAction.submitToolApproval [] ∧
    evs1 = [Event.cancelRun] := by
  obtain ⟨st, ra, le⟩ := r
  by_cases hst : st = "requires_action"
  · subst hst
    cases ra with
    | submitToolApproval tcs =>
      by_cases hemp : tcs.isEmpty
      · have htcs : tcs = [] := List.isEmpty_iff.mp hemp
        subst htcs
        simp [loopBody] at h
        exact ⟨rfl, rfl, h.symm⟩
      · by_cases happ : (mkApprovals headers tcs).isEmpty
        · simp [loopBody, hemp, happ] at h
        · simp [loopBody, hemp, happ] at h
    | noAction => simp [loopBody] at h
    | otherAction => simp [loopBody] at h
  · simp [loopBody, hst] at h

/-- A run that does not trigger the empty-tool-calls break makes the loop
body fall through to the next iteration. -/
theorem loopBody_next_of_no_stop (headers : List (String × String))
    (r : RunState) (h : emptyApprovalStop r = false) :
    (loopBody headers r).2 = LoopControl.next := by
  obtain ⟨st, ra, le⟩ := r
  by_cases hst : st = "requires_action"
  · subst hst
    cases ra with
    | submitToolApproval tcs =>
      simp [emptyApprovalStop] at h
      simp [loopBody, h]
    | noAction => simp [loopBody]
    | otherAction => simp [loopBody]
  · simp [loopBody, hst]

/-- Every event a terminating polling loop emits is a loop event: the loop
itself never lists run steps, lists messages, or prints a last error. -/
theorem pollLoop_events (headers : List (String × String)) :
    ∀ (trace : List RunState) (run f : RunState) (evs : List Event),
    pollLoop headers run trace = some (f, evs) → ∀ e ∈ evs, loopEvent e = true := by
  intro trace
  induction trace with
  | nil =>
    intro run f evs h
    simp only [pollLoop] at h
    split at h
    · simp at h
    · simp only [Option.some.injEq, Prod.mk.injEq] at h
      obtain ⟨h1, h2⟩ := h
      subst h2
      intro e he
      simp at he
  | cons r rest ih =>
    intro run f evs h
    simp only [pollLoop] at h
    split at h
    · split at h
      · next evs1 heq =>
        simp only [Option.some.injEq, Prod.mk.injEq] at h
        obtain ⟨h1, h2⟩ := h
        subst h2
        intro e he
        simp only [List.mem_cons] at he
        rcases he with rfl | rfl | he
        · rfl
        · rfl
        · exact loopBody_events headers r evs1 LoopControl.stop heq e he
      · next evs1 heq =>
        cases hq : pollLoop headers r rest with
        | none => rw [hq] at h; simp at h
        | some q =>
          rw [hq] at h
          simp only [Option.some.injEq, Prod.mk.injEq] at h
          obtain ⟨h1, h2⟩ := h
          subst h2
          intro e he
          simp only [List.mem_cons, List.mem_append] at he
          rcases he with rfl | rfl | he | he
          · rfl
          · rfl
          · exact loopBody_events headers r evs1 LoopControl.next heq e he
          · exact ih r q.1 q.2 (by rw [hq]) e he
    · simp only [Option.some.injEq, Prod.mk.injEq] at h
      obtain ⟨h1, h2⟩ := h
      subst h2
      intro e he
      simp at he

/-- When the polling loop exits, either the locally held run's status has
left the active set, or the loop broke out of the empty-tool-calls cancel
path: the final run is `requires_action` with an empty tool-call list and a
cancellation was issued. -/
theorem pollLoop_exit_inv (headers : List (String × String)) :
    ∀ (trace : List RunState) (run f : RunState) (evs : List Event),
    pollLoop headers run trace = some (f, evs) →
    f.status ∉ activeStatuses ∨
      (f.status = "requires_action" ∧
       f.required_action = RequiredAction.submitToolApproval [] ∧
       Event.cancelRun ∈ evs) := by
  intro trace
  induction trace with
  | nil =>
    intro run f evs h
    simp only [pollLoop] at h
    split at h
    · simp at h
    · next hna =>
      simp only [Option.some.injEq, Prod.mk.injEq] at h
      obtain ⟨h1, h2⟩ := h
      subst h1
      exact Or.inl hna
  | cons r rest ih =>
    intro run f evs h
    simp only [pollLoop] at h
    split at h
    · split at h
      · next evs1 heq =>
        simp only [Option.some.injEq, Prod.mk.injEq] at h
        obtain ⟨h1, h2⟩ := h
        subst h1
        subst h2
        obtain ⟨hs, ha, he⟩ := loopBody_stop_inv headers r evs1 heq
        subst he
        exact Or.inr ⟨hs, ha, by simp⟩
      · next evs1 heq =>
        cases hq : pollLoop headers r rest with
        | none => rw [hq] at h; simp at h
        | some q =>
          rw [hq] at h
          simp only [Option.some.injEq, Prod.mk.injEq] at h
          obtain ⟨h1, h2⟩ := h
          subst h1
          subst h2
          rcases ih r q.1 q.2 (by rw [hq]) with hl | ⟨hs, ha, hc⟩
          · exact Or.inl hl
          · exact Or.inr ⟨hs, ha, by simp [List.mem_append, hc]⟩
    · next hna =>
      simp only [Option.some.injEq, Prod.mk.injEq] at h
      obtain ⟨h1, h2⟩ := h
      subst h1
      exact Or.inl hna

/-- As long as the re-fetched statuses stay in the active set and no
empty-tool-calls break fires, the loop consumes the whole trace and is still
polling: there is no iteration bound or timeout. -/
theorem pollLoop_none_of_active (headers : List (String × String)) :
    ∀ (trace : List RunState) (run : RunState),
    run.status ∈ activeStatuses →
    (∀ r ∈ trace, r.status ∈ activeStatuses ∧ emptyApprovalStop r = false) →
    pollLoop headers run trace = none := by
  intro trace
  induction trace with
  | nil =>
    intro run hact _
    simp [pollLoop, hact]
  | cons r rest ih =>
    intro run hact hall
    have hr := hall r (List.mem_cons_self r rest)
    have hnext : (loopBody headers r).2 = LoopControl.next :=
      loopBody_next_of_no_stop headers r hr.2
    have hrest : pollLoop headers r rest = none :=
      ih r hr.1 (fun x hx => hall x (List.mem_cons_of_mem _ hx))
    simp only [pollLoop]
    rw [if_pos hact]
    cases hlb : loopBody headers r with
    | mk evs1 ctl =>
      rw [hlb] at hnext
      simp only at hnext
      subst hnext
      simp [hrest]

/-! ## Claim theorems -/

/-- C1 (counterexample): a `requires_action` poll with a non-empty pending
tool-call list whose sole entry is not a `RequiredMcpToolCall` yields no
`ToolApproval` at all and no submission before the next poll, so not every
pending tool call in the list is approved. -/
theorem approve_all_pending_cex :
    ([⟨"call_1", "other_tool", false⟩] : List RequiredToolCall) ≠ [] ∧
    mkApprovals [] [⟨"call_1", "other_tool", false⟩] = [] ∧
    pollLoop [] ⟨"queued", RequiredAction.noAction, none⟩
      [⟨"requires_action",
        RequiredAction.submitToolApproval [⟨"call_1", "other_tool", false⟩], none⟩,
       ⟨"completed", RequiredAction.noAction, none⟩] =
      some (⟨"completed", RequiredAction.noAction, none⟩,
        [Event.sleep 1, Event.getRun, Event.sleep 1, Event.getRun]) ∧
    submitEvents [Event.sleep 1, Event.getRun, Event.sleep 1, Event.getRun] = [] := by
  decide

/-- C1 (amended): in the polling loop, whenever the re-fetched run has status
`requires_action` with a tool-approval action, every pending tool call that
is an MCP tool call gets a `ToolApproval` with `approve = true`, and when at
least one such approval exists the whole approval list is submitted
immediately after the fetch, before the next poll iteration. -/
theorem pollLoop_approves_mcp_calls (headers : List (String × String))
    (run0 : RunState) (tcs : List RequiredToolCall) (err : Option String)
    (rest : List RunState) (tc : RequiredToolCall) (p : RunState × List Event)
    (hmem : tc ∈ tcs) (hmcp : tc.isMcp = true)
    (hact : run0.status ∈ activeStatuses)
    (hrun : pollLoop headers run0
      (⟨"requires_action", RequiredAction.submitToolApproval tcs, err⟩ :: rest) =
      some p) :
    ToolApproval.mk tc.id true headers ∈ mkApprovals headers tcs ∧
    ∃ evs2, p.2 = Event.sleep 1 :: Event.getRun ::
      Event.submitApprovals (mkApprovals headers tcs) :: evs2 := by
  have hmem' : ToolApproval.mk tc.id true headers ∈ mkApprovals headers tcs := by
    unfold mkApprovals
    exact List.mem_map_of_mem _ (List.mem_filter.mpr ⟨hmem, hmcp⟩)
  refine ⟨hmem', ?_⟩
  have hne : tcs ≠ [] := by
    intro h
    subst h
    exact List.not_mem_nil tc hmem
  have happ : (mkApprovals headers tcs).isEmpty = false := by
    cases hmk : mkApprovals headers tcs with
    | nil => rw [hmk] at hmem'; exact absurd hmem' (List.not_mem_nil _)
    | cons a l => rfl
  have hemp : tcs.isEmpty = false := by
    cases tcs with
    | nil => exact absurd rfl hne
    | cons a l => rfl
  have hlb : loopBody headers
      ⟨"requires_action", RequiredAction.submitToolApproval tcs, err⟩ =
      ([Event.submitApprovals (mkApprovals headers tcs)], LoopControl.next) := by
    simp [loopBody, hemp, happ]
  simp only [pollLoop] at hrun
  rw [if_pos hact, hlb] at hrun
  simp only at hrun
  cases hq : pollLoop headers
      ⟨"requires_action", RequiredAction.submitToolApproval tcs, err⟩ rest with
  | none => rw [hq] at hrun; simp at hrun
  | some q =>
    rw [hq] at hrun
    simp only [Option.some.injEq] at hrun
    subst hrun
    exact ⟨q.2, by simp⟩

/-- C1 (witness for the amended theorem): a concrete run with one pending MCP
tool call, approved and submitted before the next poll. -/
theorem pollLoop_approves_mcp_calls_witness :
    ToolApproval.mk "call_1" true [] ∈
      mkApprovals [] [⟨"call_1", "microsoft_docs_search", true⟩] ∧
    ∃ evs2,
      (RunState.mk "completed" RequiredAction.noAction none,
        [Event.sleep 1, Event.getRun,
         Event.submitApprovals [⟨"call_1", true, []⟩],
         Event.sleep 1, Event.getRun]).2 =
      Event.sleep 1 :: Event.getRun ::
        Event.submitApprovals
          (mkApprovals [] [⟨"call_1", "microsoft_docs_search", true⟩]) :: evs2 :=
  pollLoop_approves_mcp_calls [] ⟨"queued", RequiredAction.noAction, none⟩
    [⟨"call_1", "microsoft_docs_search", true⟩] none
    [⟨"completed", RequiredAction.noAction, none⟩]
    ⟨"call_1", "microsoft_docs_search", true⟩
    (⟨"completed", RequiredAction.noAction, none⟩,
      [Event.sleep 1, Event.getRun,
       Event.submitApprovals [⟨"call_1", true, []⟩],
       Event.sleep 1, Event.getRun])
    (by decide) (by decide) (by decide) (by decide)

/-- C2 (counterexample): on a `requires_action` poll carrying a
tool-approval action with an empty tool-call list, the loop cancels the run
and breaks while the status `"requires_action"` is still in the active set,
so the loop does not exit only on statuses outside the set and it does
cancel a run. -/
theorem loop_exit_in_active_cex :
    pollLoop [] ⟨"queued", RequiredAction.noAction, none⟩
      [⟨"requires_action", RequiredAction.submitToolApproval [], none⟩] =
      some (⟨"requires_action", RequiredAction.submitToolApproval [], none⟩,
        [Event.sleep 1, Event.getRun, Event.cancelRun]) ∧
    "requires_action" ∈ activeStatuses ∧
    Event.cancelRun ∈ [Event.sleep 1, Event.getRun, Event.cancelRun] := by
  decide

/-- C2 (amended): the polling loop exits either because the status left
`{queued, in_progress, requires_action}` or because a `requires_action` poll
carried a tool-approval action with an empty tool-call list, in which case
the run is cancelled; apart from that break the loop has no iteration bound
and no timeout — while the statuses stay in the set and the break condition
never holds, it polls through any trace without exiting. -/
theorem pollLoop_exit_and_unboundedness :
    (∀ (headers : List (String × String)) (trace : List RunState)
        (run f : RunState) (evs : List Event),
      pollLoop headers run trace = some (f, evs) →
      f.status ∉ activeStatuses ∨
        (f.status = "requires_action" ∧
         f.required_action = RequiredAction.submitToolApproval [] ∧
         Event.cancelRun ∈ evs)) ∧
    (∀ (headers : List (String × String)) (trace : List RunState)
        (run : RunState),
      run.status ∈ activeStatuses →
      (∀ r ∈ trace, r.status ∈ activeStatuses ∧ emptyApprovalStop r = false) →
      pollLoop headers run trace = none) :=
  ⟨fun headers trace run f evs h => pollLoop_exit_inv headers trace run f evs h,
   fun headers trace run hact hall => pollLoop_none_of_active headers trace run hact hall⟩

/-- C2 (witness): the exit characterization applied to a terminated concrete
run, and unbounded polling applied to a fully active concrete trace. -/
theorem pollLoop_exit_and_unboundedness_witness :
    ((RunState.mk "completed" RequiredAction.noAction none).status ∉ activeStatuses ∨
      ((RunState.mk "completed" RequiredAction.noAction none).status = "requires_action" ∧
       (RunState.mk "completed" RequiredAction.noAction none).required_action =
         RequiredAction.submitToolApproval [] ∧
       Event.cancelRun ∈ ([] : List Event))) ∧
    pollLoop [] (RunState.mk "queued" RequiredAction.noAction none)
      [RunState.mk "in_progress" RequiredAction.noAction none,
       RunState.mk "in_progress" RequiredAction.noAction none] = none :=
  ⟨pollLoop_exit_and_unboundedness.1 []
      [] (RunState.mk "completed" RequiredAction.noAction none)
      (RunState.mk "completed" RequiredAction.noAction none) [] (by decide),
   pollLoop_exit_and_unboundedness.2 []
      [RunState.mk "in_progress" RequiredAction.noAction none,
       RunState.mk "in_progress" RequiredAction.noAction none]
      (RunState.mk "queued" RequiredAction.noAction none) (by decide) (by decide)⟩

/-- C3: for the status sequence queued, in_progress, requires_action (with
exactly one pending MCP tool call), completed, the loop performs exactly one
approval submission, it contains exactly one `ToolApproval`, and it happens
immediately after the fetch that observed `requires_action`, before the next
poll. -/
theorem single_submission_for_single_mcp_call :
    pollLoop [] ⟨"queued", RequiredAction.noAction, none⟩
      [⟨"in_progress", RequiredAction.noAction, none⟩,
       ⟨"requires_action", RequiredAction.submitToolApproval
          [⟨"call_1", "microsoft_docs_search", true⟩], none⟩,
       ⟨"completed", RequiredAction.noAction, none⟩] =
      some (⟨"completed", RequiredAction.noAction, none⟩,
        [Event.sleep 1, Event.getRun, Event.sleep 1, Event.getRun,
         Event.submitApprovals [⟨"call_1", true, []⟩],
         Event.sleep 1, Event.getRun]) ∧
    submitEvents
      [Event.sleep 1, Event.getRun, Event.sleep 1, Event.getRun,
       Event.submitApprovals [⟨"call_1", true, []⟩],
       Event.sleep 1, Event.getRun] = [[⟨"call_1", true, []⟩]] := by
  decide

/-- C4 (counterexample): in the empty-tool-calls cancel path the loop breaks
while the locally observed status is still `"requires_action"` — a member of
the active set — and `run_conversation` then lists the thread's messages
anyway, so reading messages can precede a terminal local status. -/
theorem messages_before_terminal_cex :
    run_conversation (mkMcpTool []) "thread_1" "agent_1" "q"
      ⟨"queued", RequiredAction.noAction, none⟩
      [⟨"requires_action", RequiredAction.submitToolApproval [], none⟩] =
      some ("thread_1",
        ⟨"requires_action", RequiredAction.submitToolApproval [], none⟩,
        [Event.createThread, Event.createMessage "thread_1" "user" "q",
         Event.setApprovalMode "never", Event.createRun "thread_1" "agent_1",
         Event.sleep 1, Event.getRun, Event.cancelRun,
         Event.listRunSteps, Event.listMessages]) ∧
    Event.listMessages ∈
      [Event.createThread, Event.createMessage "thread_1" "user" "q",
       Event.setApprovalMode "never", Event.createRun "thread_1" "agent_1",
       Event.sleep 1, Event.getRun, Event.cancelRun,
       Event.listRunSteps, Event.listMessages] ∧
    "requires_action" ∈ activeStatuses := by
  decide

/-- C4 (amended): in every execution of `run_conversation` that does not go
through the empty-tool-calls cancellation break, the run status held when
the polling loop exits — and hence when messages are read — is outside
`{queued, in_progress, requires_action}`. -/
theorem messages_after_terminal_when_no_cancel
    (mcp_tool : McpTool) (threadId agentId userMessage : String)
    (run0 : RunState) (trace : List RunState)
    (tid : String) (f : RunState) (evs : List Event)
    (h : run_conversation mcp_tool threadId agentId userMessage run0 trace =
      some (tid, f, evs))
    (hnc : Event.cancelRun ∉ evs) :
    f.status ∉ activeStatuses := by
  unfold run_conversation at h
  cases hp : pollLoop mcp_tool.headers run0 trace with
  | none => rw [hp] at h; simp at h
  | some p =>
    rw [hp] at h
    simp only [Option.some.injEq, Prod.mk.injEq] at h
    obtain ⟨h1, h2, h3⟩ := h
    subst h2
    rcases pollLoop_exit_inv mcp_tool.headers trace run0 p.1 p.2 (by rw [hp]) with
      hl | ⟨hs, ha, hc⟩
    · exact hl
    · exfalso
      apply hnc
      subst h3
      simp [List.mem_cons, List.mem_append, hc]

/-- C4 (witness for the amended theorem): a run that completes normally exits
the loop with the terminal status `"completed"`. -/
theorem messages_after_terminal_when_no_cancel_witness :
    (RunState.mk "completed" RequiredAction.noAction none).status ∉ activeStatuses :=
  messages_after_terminal_when_no_cancel (mkMcpTool []) "thread_1" "agent_1" "q"
    (RunState.mk "queued" RequiredAction.noAction none)
    [RunState.mk "completed" RequiredAction.noAction none]
    "thread_1" (RunState.mk "completed" RequiredAction.noAction none)
    [Event.createThread, Event.createMessage "thread_1" "user" "q",
     Event.setApprovalMode "never", Event.createRun "thread_1" "agent_1",
     Event.sleep 1, Event.getRun, Event.listRunSteps, Event.listMessages]
    (by decide) (by decide)

/-- C10: whenever `run_conversation` returns, it hands back exactly the
thread id of the thread it created; and when the loop exited with status
`"failed"`, the run's last error is printed while no run steps are listed
and no messages are listed or printed. -/
theorem run_failed_prints_error_returns_thread
    (mcp_tool : McpTool) (threadId agentId userMessage : String)
    (run0 : RunState) (trace : List RunState)
    (tid : String) (f : RunState) (evs : List Event)
    (h : run_conversation mcp_tool threadId agentId userMessage run0 trace =
      some (tid, f, evs)) :
    tid = threadId ∧
    (f.status = "failed" →
      Event.printLastError f.last_error ∈ evs ∧
      Event.listRunSteps ∉ evs ∧ Event.listMessages ∉ evs) := by
  unfold run_conversation at h
  cases hp : pollLoop mcp_tool.headers run0 trace with
  | none => rw [hp] at h; simp at h
  | some p =>
    rw [hp] at h
    simp only [Option.some.injEq, Prod.mk.injEq] at h
    obtain ⟨h1, h2, h3⟩ := h
    subst h2
    subst h3
    refine ⟨h1.symm, ?_⟩
    intro hfail
    have hpost : postLoop p.1 = [Event.printLastError p.1.last_error] := by
      simp [postLoop, hfail]
    have hloop := pollLoop_events mcp_tool.headers trace run0 p.1 p.2 (by rw [hp])
    refine ⟨?_, ?_, ?_⟩
    · simp [List.mem_cons, List.mem_append, hpost]
    · intro hmem
      simp [hpost] at hmem
      exact absurd (hloop _ hmem) (by decide)
    · intro hmem
      simp [hpost] at hmem
      exact absurd (hloop _ hmem) (by decide)

/-- C10 (witness): a concrete failed run prints its last error and lists
neither run steps nor messages. -/
theorem run_failed_prints_error_returns_thread_witness :
    Event.printLastError (some "boom") ∈
      [Event.createThread, Event.createMessage "thread_1" "user" "q",
       Event.setApprovalMode "never", Event.createRun "thread_1" "agent_1",
       Event.sleep 1, Event.getRun, Event.printLastError (some "boom")] ∧
    Event.listRunSteps ∉
      [Event.createThread, Event.createMessage "thread_1" "user" "q",
       Event.setApprovalMode "never", Event.createRun "thread_1" "agent_1",
       Event.sleep 1, Event.getRun, Event.printLastError (some "boom")] ∧
    Event.listMessages ∉
      [Event.createThread, Event.createMessage "thread_1" "user" "q",
       Event.setApprovalMode "never", Event.createRun "thread_1" "agent_1",
       Event.sleep 1, Event.getRun, Event.printLastError (some "boom")] := by
  have h := run_failed_prints_error_returns_thread (mkMcpTool []) "thread_1"
    "agent_1" "q" (RunState.mk "queued" RequiredAction.noAction none)
    [RunState.mk "failed" RequiredAction.noAction (some "boom")]
    "thread_1" (RunState.mk "failed" RequiredAction.noAction (some "boom"))
    [Event.createThread, Event.createMessage "thread_1" "user" "q",
     Event.setApprovalMode "never", Event.createRun "thread_1" "agent_1",
     Event.sleep 1, Event.getRun, Event.printLastError (some "boom")]
    (by decide)
  exact h.2 rfl

/-- C5: `main` warns and returns before constructing the MCP tool or the
project client whenever the configured endpoint does not contain the
substring `services.ai.azure.com` (which covers the empty endpoint), and
proceeds past the check to the client construction whenever it does. -/
theorem main_endpoint_gate (env : Env) :
    (¬ ("services.ai.azure.com".data <:+: (PROJECT_ENDPOINT env).data) →
      mainCheck env = MainOutcome.warned) ∧
    (("services.ai.azure.com".data <:+: (PROJECT_ENDPOINT env).data) →
      mainCheck env = MainOutcome.ran (PROJECT_ENDPOINT env) (mkMcpTool env)) := by
  constructor
  · intro hni
    have hc : strContains (PROJECT_ENDPOINT env) "services.ai.azure.com" = false := by
      cases hb : strContains (PROJECT_ENDPOINT env) "services.ai.azure.com" with
      | false => rfl
      | true => exact absurd ((hasSub_iff _ _).mp hb) hni
    simp [mainCheck, hc]
  · intro hin
    have hc : strContains (PROJECT_ENDPOINT env) "services.ai.azure.com" = true :=
      (hasSub_iff _ _).mpr hin
    have hne : PROJECT_ENDPOINT env ≠ "" := by
      intro he
      rw [he] at hin
      simp at hin
    simp [mainCheck, hc, hne]

/-- C5 (witness): a conforming endpoint passes the gate and reaches the tool
and client construction; the empty default endpoint makes `main` warn and
return. -/
theorem main_endpoint_gate_witness :
    mainCheck [("PROJECT_ENDPOINT", "https://r.services.ai.azure.com/api/projects/p")] =
      MainOutcome.ran "https://r.services.ai.azure.com/api/projects/p"
        (mkMcpTool [("PROJECT_ENDPOINT", "https://r.services.ai.azure.com/api/projects/p")]) ∧
    mainCheck [] = MainOutcome.warned :=
  ⟨(main_endpoint_gate
      [("PROJECT_ENDPOINT", "https://r.services.ai.azure.com/api/projects/p")]).2
      (by decide),
   (main_endpoint_gate []).1 (by decide)⟩

/-- C6 (counterexample): error messages matching the `"404"` and the
`"az login"`/`"credential"` cases receive no hint from the handler in
`main.py`: only `"PermissionDenied"` and `"rate_limit"` are matched. -/
theorem missing_hint_cases_cex :
    strContains "Error 404 resource not found" "404" = true ∧
    errorHints "Error 404 resource not found" = [] ∧
    strContains "please run az login to refresh the credential" "az login" = true ∧
    strContains "please run az login to refresh the credential" "credential" = true ∧
    errorHints "please run az login to refresh the credential" = [] := by
  decide

/-- C6 (amended): the catch-all handler prints the exception and a
traceback, then matches only two substring cases — `"PermissionDenied"` in
the message gives the role hint, otherwise `"rate_limit"` in the lowercased
message gives the rate-limit hint — and prints at most one hint; there are
no `"404"` or `"az login"`/`"credential"` cases. -/
theorem exceptionHandler_hint_cases (msg : String) :
    (strContains msg "PermissionDenied" = true →
      errorHints msg = [Hint.azureAIUserRole]) ∧
    (strContains msg "PermissionDenied" = false →
      strContains (strLower msg) "rate_limit" = true →
      errorHints msg = [Hint.rateLimitWait]) ∧
    (strContains msg "PermissionDenied" = false →
      strContains (strLower msg) "rate_limit" = false →
      errorHints msg = []) ∧
    exceptionHandler msg =
      HandlerStep.printError msg :: HandlerStep.printTraceback ::
        (errorHints msg).map HandlerStep.printHint ∧
    (errorHints msg).length ≤ 1 := by
  refine ⟨?_, ?_, ?_, rfl, ?_⟩
  · intro hp
    simp [errorHints, hp]
  · intro hp hr
    simp [errorHints, hp, hr]
  · intro hp hr
    simp [errorHints, hp, hr]
  · by_cases hp : strContains msg "PermissionDenied" = true
    · simp [errorHints, hp]
    · by_cases hr : strContains (strLower msg) "rate_limit" = true
      · simp [errorHints, hp, hr]
      · simp [errorHints, hp, hr]

/-- C6 (witness): a `PermissionDenied` message selects exactly the role
hint. -/
theorem exceptionHandler_hint_cases_witness :
    errorHints "PermissionDenied for principal" = [Hint.azureAIUserRole] :=
  (exceptionHandler_hint_cases "PermissionDenied for principal").1 (by decide)

/-- C7 (counterexample): only the first name of each documented pair is
consulted — setting only `AZURE_AI_PROJECT_ENDPOINT`,
`AZURE_AI_MODEL_DEPLOYMENT_NAME`, or `MCP_SERVER_NAME` leaves the
corresponding value at its default rather than the supplied value. -/
theorem alternate_env_names_cex :
    PROJECT_ENDPOINT
      [("AZURE_AI_PROJECT_ENDPOINT", "https://r.services.ai.azure.com/api/projects/p")] = "" ∧
    MODEL_DEPLOYMENT_NAME [("AZURE_AI_MODEL_DEPLOYMENT_NAME", "gpt-4o")] = "gpt-4o-mini" ∧
    MCP_SERVER_LABEL [("MCP_SERVER_NAME", "my_label")] = "microsoft_learn" := by
  decide

/-- C7 (amended): each configuration value is read from a single environment
variable — `PROJECT_ENDPOINT`, `MODEL_DEPLOYMENT_NAME`, `MCP_SERVER_URL`,
`MCP_SERVER_LABEL` — whose value it returns when set; the alternate names
`AZURE_AI_PROJECT_ENDPOINT`, `AZURE_AI_MODEL_DEPLOYMENT_NAME` and
`MCP_SERVER_NAME` are never consulted: binding them changes nothing. -/
theorem config_reads_primary_names_only :
    (∀ v : String,
      PROJECT_ENDPOINT [("PROJECT_ENDPOINT", v)] = v ∧
      MODEL_DEPLOYMENT_NAME [("MODEL_DEPLOYMENT_NAME", v)] = v ∧
      MCP_SERVER_URL [("MCP_SERVER_URL", v)] = v ∧
      MCP_SERVER_LABEL [("MCP_SERVER_LABEL", v)] = v) ∧
    (∀ (env : Env) (w : String),
      PROJECT_ENDPOINT (("AZURE_AI_PROJECT_ENDPOINT", w) :: env) =
        PROJECT_ENDPOINT env ∧
      MODEL_DEPLOYMENT_NAME (("AZURE_AI_MODEL_DEPLOYMENT_NAME", w) :: env) =
        MODEL_DEPLOYMENT_NAME env ∧
      MCP_SERVER_LABEL (("MCP_SERVER_NAME", w) :: env) =
        MCP_SERVER_LABEL env) := by
  constructor
  · intro v
    refine ⟨?_, ?_, ?_, ?_⟩ <;>
      simp [PROJECT_ENDPOINT, MODEL_DEPLOYMENT_NAME, MCP_SERVER_URL,
        MCP_SERVER_LABEL, envGet, List.lookup]
  · intro env w
    refine ⟨?_, ?_, ?_⟩ <;>
      simp [PROJECT_ENDPOINT, MODEL_DEPLOYMENT_NAME, MCP_SERVER_LABEL,
        envGet, List.lookup]

/-- C8: with no environment variables set, the endpoint resolves to the
empty string, the model to `"gpt-4o-mini"`, the MCP server URL to
`"https://learn.microsoft.com/api/mcp"`, and the MCP server label to
`"microsoft_learn"`. -/
theorem config_defaults :
    PROJECT_ENDPOINT [] = "" ∧
    MODEL_DEPLOYMENT_NAME [] = "gpt-4o-mini" ∧
    MCP_SERVER_URL [] = "https://learn.microsoft.com/api/mcp" ∧
    MCP_SERVER_LABEL [] = "microsoft_learn" := by
  decide

/-- `find?` returns the head of the first match: with a prefix of
non-matching agents, the first agent named `AGENT_NAME` is found. -/
theorem find?_prefix_first (pre post : List Agent) (x : Agent)
    (hpre : ∀ b ∈ pre, b.name ≠ AGENT_NAME) (hx : x.name = AGENT_NAME) :
    (pre ++ x :: post).find? (fun a => a.name == AGENT_NAME) = some x := by
  induction pre with
  | nil =>
    have hpx : (x.name == AGENT_NAME) = true := by simp [hx]
    rw [List.nil_append]
    exact List.find?_cons_of_pos post hpx
  | cons b pre ih =>
    have hb : ¬((b.name == AGENT_NAME) = true) := by
      simp
      exact hpre b (List.mem_cons_self b pre)
    have step : List.find? (fun a => a.name == AGENT_NAME) (b :: (pre ++ x :: post)) =
        List.find? (fun a => a.name == AGENT_NAME) (pre ++ x :: post) :=
      List.find?_cons_of_neg _ hb
    rw [List.cons_append, step]
    exact ih (fun c hc => hpre c (List.mem_cons_of_mem b hc))

/-- C9: `get_or_create_agent` returns the first listed agent named
`"mcp-docs-assistant"` without creating anything when one exists, and
otherwise creates and returns a new agent carrying that name, the configured
model and the MCP tool definitions. -/
theorem get_or_create_agent_reuse_or_create (agents : List Agent)
    (modelName : String) (defs : List String) (newId : String) :
    (∀ pre x post, agents = pre ++ x :: post →
      (∀ b ∈ pre, b.name ≠ AGENT_NAME) → x.name = AGENT_NAME →
      get_or_create_agent agents modelName defs newId = (x, false)) ∧
    ((∀ a ∈ agents, a.name ≠ AGENT_NAME) →
      get_or_create_agent agents modelName defs newId =
        (⟨newId, AGENT_NAME, modelName, AGENT_INSTRUCTIONS, defs⟩, true)) := by
  constructor
  · intro pre x post heq hpre hx
    subst heq
    unfold get_or_create_agent
    rw [find?_prefix_first pre post x hpre hx]
  · intro hall
    unfold get_or_create_agent
    have hn : agents.find? (fun a => a.name == AGENT_NAME) = none := by
      rw [List.find?_eq_none]
      intro a ha
      simp
      exact hall a ha
    rw [hn]

/-- C9 (witness): with an existing agent of the reserved name second in the
list, it is returned unchanged and nothing is created; with no agents, a new
agent with the reserved name, model and tools is created. -/
theorem get_or_create_agent_reuse_or_create_witness :
    get_or_create_agent
      [⟨"agent_0", "someone-else", "m0", "i0", []⟩,
       ⟨"agent_1", "mcp-docs-assistant", "m1", "i1", []⟩]
      "gpt-4o-mini" ["tool_a"] "agent_new" =
      (⟨"agent_1", "mcp-docs-assistant", "m1", "i1", []⟩, false) ∧
    get_or_create_agent [] "gpt-4o-mini" ["tool_a"] "agent_new" =
      (⟨"agent_new", AGENT_NAME, "gpt-4o-mini", AGENT_INSTRUCTIONS, ["tool_a"]⟩, true) :=
  ⟨(get_or_create_agent_reuse_or_create
      [⟨"agent_0", "someone-else", "m0", "i0", []⟩,
       ⟨"agent_1", "mcp-docs-assistant", "m1", "i1", []⟩]
      "gpt-4o-mini" ["tool_a"] "agent_new").1
      [⟨"agent_0", "someone-else", "m0", "i0", []⟩]
      ⟨"agent_1", "mcp-docs-assistant", "m1", "i1", []⟩ [] rfl (by decide) rfl,
   (get_or_create_agent_reuse_or_create [] "gpt-4o-mini" ["tool_a"] "agent_new").2
      (by decide)⟩
